import Mathlib

/-!
Shallow embedding of the ValutaTrade Hub core (currency registry, rate
resolver, wallet/portfolio ledger, trading operations, account service and
the rate-refresh pipeline), translated from
`src/valutatrade_hub/core/{currencies,models,usecases,utils}.py`,
`src/valutatrade_hub/cli/interface.py` and
`src/valutatrade_hub/parser_service/updater.py`.

Modelling conventions:
* Python floats are modelled as `ℚ` (the claims under study are about
  control flow and exact balance/rate bookkeeping, not binary rounding).
* Wall-clock instants are integers (seconds); the stored `updated_at`
  string of a cache entry is `Option (Option Int)`: `none` = field absent
  (JSON `null`/missing), `some none` = present but not ISO-parsable,
  `some (some t)` = parses to instant `t`.
* Python exceptions become an `Err` sum; a raising function returns
  `Except Err α`.  `Err.valueError` stands for the *builtin* `ValueError`
  (the project's `ValutaTradeError` hierarchy is NOT a subclass of it, so
  the two are distinct constructors, exactly as `except ValueError`
  clauses distinguish them at runtime).
* File I/O is replaced by threading an explicit `DB` value; the JSON
  on-disk shape of a portfolio is `PortfolioDict` (wallet code in the key,
  only the balance in the value), exactly as `Portfolio.to_dict` writes it.
-/

set_option autoImplicit false

namespace ValutaTrade

/-- Python exception taxonomy of `core/exceptions.py` plus the builtin
`ValueError` (raised by `Wallet.deposit`/`Wallet.withdraw` and
`Portfolio.get_total_value`). `insufficientFunds` mirrors
`InsufficientFundsError(available, required, code)`. -/
inductive Err where
  | validationError (msg : String)
  | currencyNotFound (code : String)
  | invalidCurrencyCode (msg : String)
  | exchangeRateNotFound (fromCode toCode : String)
  | walletNotFound (msg : String)
  | insufficientFunds (available required : ℚ) (code : String)
  | valueError (msg : String)
deriving DecidableEq, Repr

/-- The codes registered by `_initialize_currency_registry()` in
`core/currencies.py` (9 fiat + 8 crypto). -/
def registryCodes : List String :=
  ["USD", "EUR", "GBP", "RUB", "JPY", "CNY", "CHF", "CAD", "AUD",
   "BTC", "ETH", "USDT", "BNB", "SOL", "ADA", "XRP", "DOGE"]

/-- `str.strip()` on the underlying character list: drop whitespace from
both ends. -/
def stripChars (l : List Char) : List Char :=
  ((l.dropWhile Char.isWhitespace).reverse.dropWhile Char.isWhitespace).reverse

/-- `code.strip().upper()`, the normalization used by `get_currency`
(computed on the character list so that it is kernel-reducible). -/
def normalizeCode (code : String) : String :=
  ⟨(stripChars code.data).map Char.toUpper⟩

/-- `code.upper()` as used by `Portfolio.get_wallet`/`add_currency`. -/
def upperCode (code : String) : String := ⟨code.data.map Char.toUpper⟩

/-- `get_currency` of `core/currencies.py`: empty code raises
`InvalidCurrencyCodeError`; otherwise the trimmed upper-cased code is looked
up in the registry and returned (the `Currency` object is identified with
its normalized `code` attribute, the only field the use cases read). -/
def getCurrency (code : String) : Except Err String :=
  if code = "" then .error (.invalidCurrencyCode "Код валюты не может быть пустым")
  else if normalizeCode code ∈ registryCodes then .ok (normalizeCode code)
  else .error (.currencyNotFound (normalizeCode code))

/-- `Portfolio.EXCHANGE_RATES` of `core/models.py`: the fixed
currency→USD reference table. -/
def exchangeRatesTable : List (String × ℚ) :=
  [("USD", 1), ("EUR", 11/10), ("BTC", 45000), ("RUB", 11/1000), ("GBP", 127/100)]

/-- Membership/lookup in `Portfolio.EXCHANGE_RATES`. -/
def tableLookup (code : String) : Option ℚ :=
  (exchangeRatesTable.find? (·.1 == code)).map (·.2)

/-- One cache entry `{"rate": …, "updated_at": …}` of `rates.json`. -/
structure RateEntry where
  rate : ℚ
  updated_at : Option (Option Int)
deriving DecidableEq, Repr

/-- The `rates.json` value: `get_exchange_rate` reads pair entries only from
the `"pairs"` sub-dict (absent ⇒ it sees no pairs), while
`_update_exchange_rate_from_api` writes refreshed entries at top level. -/
structure RatesStore where
  pairs : Option (List (String × RateEntry))
  top : List (String × RateEntry)
deriving DecidableEq, Repr

/-- `rates.get("pairs", {})` of `usecases.py:271`. -/
def ratePairs (store : RatesStore) : List (String × RateEntry) := store.pairs.getD []

/-- `key in d` / `d[key]` over a JSON object, first-match lookup. -/
def lookupPair (l : List (String × RateEntry)) (k : String) : Option RateEntry :=
  (l.find? (·.1 == k)).map (·.2)

/-- `d[key] = entry` on a JSON object: overwrite in place or append. -/
def upsertEntry (l : List (String × RateEntry)) (k : String) (e : RateEntry) :
    List (String × RateEntry) :=
  if l.any (·.1 == k) then l.map (fun kv => if kv.1 == k then (k, e) else kv)
  else l ++ [(k, e)]

/-- `_update_exchange_rate_from_api` of `usecases.py`: the stubbed external
source.  It succeeds iff both codes are in `Portfolio.EXCHANGE_RATES`, in
which case it persists the refreshed entry at the top level of `rates.json`
and returns the new rate with a fresh timestamp; otherwise it raises
`ApiRequestError` (`none` here — every call site catches it). -/
def updateFromApi (fromCode toCode : String) (store : RatesStore) (now : Int) :
    Option ((ℚ × Option (Option Int)) × RatesStore) :=
  match tableLookup fromCode, tableLookup toCode with
  | some fr, some tr =>
      some ((fr / tr, some (some now)),
        { store with
          top := upsertEntry store.top (fromCode ++ "_" ++ toCode)
                   ⟨fr / tr, some (some now)⟩ })
  | _, _ => none

/-- The direct-pair branch of `get_exchange_rate` (`usecases.py:277-304`):
fresh entry ⇒ cached rate and stored timestamp; stale entry ⇒ refresh,
falling back to the stale value if the external source fails; missing or
unparsable timestamp (or `use_cache=False`) ⇒ cached value as-is. -/
def resolveDirect (e : RateEntry) (fromCode toCode : String) (useCache : Bool)
    (store : RatesStore) (now ttl : Int) : (ℚ × Option (Option Int)) × RatesStore :=
  match useCache, e.updated_at with
  | true, some (some ts) =>
      if now - ts < ttl then ((e.rate, e.updated_at), store)
      else
        match updateFromApi fromCode toCode store now with
        | some (res, store') => (res, store')
        | none => ((e.rate, e.updated_at), store)
  | _, _ => ((e.rate, e.updated_at), store)

/-- The inverse-pair branch of `get_exchange_rate` (`usecases.py:306-330`):
same freshness logic on the `TO_FROM` entry, returning `1/rate`. -/
def resolveReverse (e : RateEntry) (fromCode toCode : String) (useCache : Bool)
    (store : RatesStore) (now ttl : Int) : (ℚ × Option (Option Int)) × RatesStore :=
  match useCache, e.updated_at with
  | true, some (some ts) =>
      if now - ts < ttl then ((1 / e.rate, e.updated_at), store)
      else
        match updateFromApi toCode fromCode store now with
        | some (rr, store') => ((1 / rr.1, rr.2), store')
        | none => ((1 / e.rate, e.updated_at), store)
  | _, _ => ((1 / e.rate, e.updated_at), store)

/-- `get_exchange_rate` after validation and the identity short-circuit
(`usecases.py:268-348`): direct pair, then inverse pair, then external
fetch, then the static fallback table, else `ExchangeRateNotFoundError`. -/
def resolveRate (fromCode toCode : String) (useCache : Bool) (store : RatesStore)
    (now ttl : Int) : Except Err ((ℚ × Option (Option Int)) × RatesStore) :=
  match lookupPair (ratePairs store) (fromCode ++ "_" ++ toCode) with
  | some e => .ok (resolveDirect e fromCode toCode useCache store now ttl)
  | none =>
    match lookupPair (ratePairs store) (toCode ++ "_" ++ fromCode) with
    | some e => .ok (resolveReverse e fromCode toCode useCache store now ttl)
    | none =>
      match updateFromApi fromCode toCode store now with
      | some (res, store') => .ok (res, store')
      | none =>
        match tableLookup fromCode, tableLookup toCode with
        | some fr, some tr => .ok ((fr / tr, none), store)
        | _, _ => .error (.exchangeRateNotFound fromCode toCode)

/-- `get_exchange_rate` of `usecases.py:229-348`.  Note that the function
validates each argument through `get_currency` (re-raising
`CurrencyNotFoundError` with the *raw* argument) but performs the identity
check and every lookup with the raw, un-normalized strings. -/
def getExchangeRate (fromCode toCode : String) (useCache : Bool) (store : RatesStore)
    (now ttl : Int) : Except Err ((ℚ × Option (Option Int)) × RatesStore) :=
  match getCurrency fromCode with
  | .error (.currencyNotFound _) => .error (.currencyNotFound fromCode)
  | .error e => .error e
  | .ok _ =>
    match getCurrency toCode with
    | .error (.currencyNotFound _) => .error (.currencyNotFound toCode)
    | .error e => .error e
    | .ok _ =>
      if fromCode = toCode then .ok ((1, none), store)
      else resolveRate fromCode toCode useCache store now ttl

/-- `Wallet` of `core/models.py`: a currency code and a non-negative float
balance (the invariant is enforced by the mutators below, not by the type). -/
structure Wallet where
  currency_code : String
  balance : ℚ
deriving DecidableEq, Repr

/-- `Wallet.deposit` (`models.py:199-214`): rejects non-positive amounts
with a plain builtin `ValueError`. -/
def Wallet.deposit (w : Wallet) (amount : ℚ) : Except Err Wallet :=
  if amount ≤ 0 then .error (.valueError "Сумма пополнения должна быть положительным числом")
  else .ok { w with balance := w.balance + amount }

/-- `Wallet.withdraw` (`models.py:216-233`): rejects non-positive amounts
and amounts above the balance — in both cases with a plain builtin
`ValueError`, not with the `InsufficientFundsError` of `core/exceptions.py`. -/
def Wallet.withdraw (w : Wallet) (amount : ℚ) : Except Err Wallet :=
  if amount ≤ 0 then .error (.valueError "Сумма снятия должна быть положительным числом")
  else if w.balance < amount then .error (.valueError "Недостаточно средств на балансе")
  else .ok { w with balance := w.balance - amount }

/-- In-memory `Portfolio` of `core/models.py`: owner id and the
`_wallets` dict (insertion-ordered association list, keys unique in any
state the program builds). -/
structure Portfolio where
  user_id : Int
  wallets : List (String × Wallet)
deriving DecidableEq, Repr

/-- `Portfolio.get_wallet`: upper-cases the code and looks it up. -/
def Portfolio.getWallet (p : Portfolio) (code : String) : Option Wallet :=
  (p.wallets.find? (·.1 == upperCode code)).map (·.2)

/-- `Portfolio.add_currency`: upper-cases the code, fails with `ValueError`
if a wallet already exists, else registers a fresh zero-balance wallet. -/
def Portfolio.addCurrency (p : Portfolio) (code : String) : Except Err (Wallet × Portfolio) :=
  if (p.wallets.find? (·.1 == upperCode code)).isSome then
    .error (.valueError ("Кошелёк с валютой " ++ upperCode code ++ " уже существует"))
  else
    .ok (⟨upperCode code, 0⟩,
      { p with wallets := p.wallets ++ [(upperCode code, ⟨upperCode code, 0⟩)] })

/-- Writing a mutated wallet object back into the `_wallets` dict: in
Python the mutation is through the object reference returned by
`get_wallet`/`add_currency`, i.e. it replaces the first entry under the
key. -/
def setWallet : List (String × Wallet) → String → Wallet → List (String × Wallet)
  | [], _, _ => []
  | (k, v) :: rest, code, w =>
    if k == code then (k, w) :: rest else (k, v) :: setWallet rest code w

/-- The per-wallet loop of `Portfolio.get_total_value`
(`models.py:379-389`): raises `ValueError` on the first wallet whose
currency is missing from `EXCHANGE_RATES`. -/
def totalValueGo (baseRate : ℚ) : List (String × Wallet) → ℚ → Except Err ℚ
  | [], acc => .ok acc
  | (_, w) :: rest, acc =>
    match tableLookup w.currency_code with
    | none => .error (.valueError ("Курс для валюты " ++ w.currency_code ++ " не найден"))
    | some r => totalValueGo baseRate rest (acc + w.balance * r / baseRate)

/-- `Portfolio.get_total_value` of `core/models.py:359-391`. -/
def Portfolio.getTotalValue (p : Portfolio) (baseCurrency : String) : Except Err ℚ :=
  let base := upperCode baseCurrency
  match tableLookup base with
  | none => .error (.valueError ("Курс для валюты " ++ base ++ " не найден"))
  | some baseRate => totalValueGo baseRate p.wallets 0

/-- The JSON shape written by `Portfolio.to_dict`
(`models.py:393-407`): the wallet code lives in the key, the value keeps
only the balance (`Option` because `from_dict` tolerates a missing
`"balance"` field, defaulting to `0.0`). -/
structure PortfolioDict where
  user_id : Int
  wallets : List (String × Option ℚ)
deriving DecidableEq, Repr

/-- `Portfolio.to_dict` of `core/models.py:393-407`. -/
def Portfolio.to_dict (p : Portfolio) : PortfolioDict :=
  { user_id := p.user_id, wallets := p.wallets.map (fun kw => (kw.1, some kw.2.balance)) }

/-- `Portfolio.from_dict` of `core/models.py:409-425`: rebuilds each
wallet from its key and stored balance. -/
def Portfolio.from_dict (d : PortfolioDict) : Portfolio :=
  { user_id := d.user_id,
    wallets := d.wallets.map (fun kb => (kb.1, ⟨kb.1, kb.2.getD 0⟩)) }

/-- A stored user row (`users.json`).  The credential fields
(`hashed_password`, `salt`, `registration_date`) belong to the
authentication collaborator the spec treats as an opaque oracle and play no
role in the claims under study, so they are not carried here. -/
structure UserRec where
  user_id : Int
  username : String
deriving DecidableEq, Repr

/-- The whole persisted state: `users.json`, `portfolios.json` (list of
`Portfolio.to_dict` rows) and `rates.json`. -/
structure DB where
  users : List UserRec
  portfolios : List PortfolioDict
  rates : RatesStore
deriving DecidableEq, Repr

/-- `next(p for p in portfolios if p["user_id"] == user_id)`. -/
def findPortfolioDict (ps : List PortfolioDict) (uid : Int) : Option PortfolioDict :=
  ps.find? (fun p => p.user_id == uid)

/-- `get_user_portfolio` of `usecases.py:127-148`: deserialize the stored
row, or lazily create, persist and return an empty portfolio. -/
def getUserPortfolio (db : DB) (uid : Int) : Portfolio × DB :=
  match findPortfolioDict db.portfolios uid with
  | some d => (Portfolio.from_dict d, db)
  | none =>
    let p : Portfolio := ⟨uid, []⟩
    (p, { db with portfolios := db.portfolios ++ [p.to_dict] })

/-- The replace-first-or-append loop of `save_portfolio`
(`usecases.py:162-180`). -/
def savePortfolioList : List PortfolioDict → PortfolioDict → List PortfolioDict
  | [], d => [d]
  | p :: rest, d =>
    if p.user_id == d.user_id then d :: rest else p :: savePortfolioList rest d

/-- `save_portfolio` of `usecases.py:162-180`. -/
def savePortfolio (db : DB) (p : Portfolio) : DB :=
  { db with portfolios := savePortfolioList db.portfolios p.to_dict }

/-- Observer for theorem statements: the balance recorded on disk for
`(uid, code)` (0 when the portfolio or the wallet is absent), read with the
same first-match lookups the code uses. -/
def portfolioBalance (db : DB) (uid : Int) (code : String) : ℚ :=
  match findPortfolioDict db.portfolios uid with
  | none => 0
  | some d =>
    match d.wallets.find? (·.1 == code) with
    | some kb => kb.2.getD 0
    | none => 0

/-- `validate_currency_code` of `core/utils.py:90-114`. -/
def validateCurrencyCode (code : String) : Except Err String :=
  if code = "" then .error (.invalidCurrencyCode "Код валюты не может быть пустым")
  else if (normalizeCode code).length < 2 ∨ 10 < (normalizeCode code).length then
    .error (.invalidCurrencyCode
      ("Код валюты должен быть от 2 до 10 символов: " ++ normalizeCode code))
  else if ¬ ((normalizeCode code).data.all Char.isAlphanum) then
    .error (.invalidCurrencyCode
      ("Код валюты должен содержать только буквы и цифры: " ++ normalizeCode code))
  else .ok (normalizeCode code)

/-- `convert_currency_amount` of `core/utils.py:145-181`.  Note the order:
the amount and the positivity of the rate are checked (raising
`ValidationError`) before the codes are validated. -/
def convertCurrencyAmount (amount : ℚ) (fromCode toCode : String) (exchangeRate : ℚ) :
    Except Err ℚ :=
  if amount < 0 then .error (.validationError "Сумма не может быть отрицательной")
  else if exchangeRate ≤ 0 then
    .error (.validationError "Курс обмена должен быть положительным числом")
  else
    match validateCurrencyCode fromCode with
    | .error e => .error e
    | .ok _ =>
      match validateCurrencyCode toCode with
      | .error e => .error e
      | .ok _ =>
        if fromCode = toCode then .ok amount
        else .ok (amount * exchangeRate)

/-- Result dict of `buy_currency` (`usecases.py:408-416`): `rate`,
`base` and `cost_usd` are `None` when the valuation was unavailable. -/
structure BuyResult where
  currency : String
  amount : ℚ
  old_balance : ℚ
  new_balance : ℚ
  rate : Option ℚ
  base : Option String
  cost_usd : Option ℚ
deriving DecidableEq, Repr

/-- Result dict of `sell_currency` (`usecases.py:481-489`). -/
structure SellResult where
  currency : String
  amount : ℚ
  old_balance : ℚ
  new_balance : ℚ
  rate : Option ℚ
  base : Option String
  revenue_usd : Option ℚ
deriving DecidableEq, Repr

/-- The best-effort valuation step shared by `buy_currency` and
`sell_currency` (`usecases.py:395-403` and `468-476`): resolve
`code → USD` and convert; `ExchangeRateNotFoundError` is swallowed (the
valuation fields stay `None`), every other exception propagates. -/
def bestEffortValuation (ncode : String) (amount : ℚ) (store : RatesStore)
    (now ttl : Int) : Except Err (Option ℚ × Option ℚ × RatesStore) :=
  match getExchangeRate ncode "USD" true store now ttl with
  | .ok rr =>
    match convertCurrencyAmount amount ncode "USD" rr.1.1 with
    | .ok c => .ok (some rr.1.1, some c, rr.2)
    | .error e => .error e
  | .error (.exchangeRateNotFound _ _) => .ok (none, none, store)
  | .error e => .error e

/-- The get-or-create step of `buy_currency` (`usecases.py:387-389`):
reuse the existing wallet or register a fresh one. -/
def getOrCreateWallet (p : Portfolio) (code : String) : Except Err (Wallet × Portfolio) :=
  match p.getWallet code with
  | some w => .ok (w, p)
  | none => p.addCurrency code

/-- `buy_currency` of `usecases.py:351-416`: validate, load/create the
wallet, deposit, best-effort valuation, persist, report. -/
def buyCurrency (user : UserRec) (currencyCode : String) (amount : ℚ) (db : DB)
    (now ttl : Int) : Except Err (BuyResult × DB) :=
  if amount ≤ 0 then .error (.validationError "Сумма покупки должна быть положительным числом")
  else
    match getCurrency currencyCode with
    | .error (.currencyNotFound _) => .error (.currencyNotFound currencyCode)
    | .error e => .error e
    | .ok ncode =>
      match getOrCreateWallet (getUserPortfolio db user.user_id).1 ncode with
      | .error e => .error e
      | .ok wp =>
        match wp.1.deposit amount with
        | .error e => .error e
        | .ok wNew =>
          match bestEffortValuation ncode amount
              (getUserPortfolio db user.user_id).2.rates now ttl with
          | .error e => .error e
          | .ok v =>
            .ok ({ currency := ncode, amount := amount, old_balance := wp.1.balance,
                   new_balance := wNew.balance, rate := v.1,
                   base := if v.1.isSome then some "USD" else none,
                   cost_usd := v.2.1 },
                 savePortfolio { (getUserPortfolio db user.user_id).2 with rates := v.2.2 }
                   { wp.2 with wallets := setWallet wp.2.wallets (upperCode ncode) wNew })

/-- `sell_currency` of `usecases.py:419-489`: validate, require an
existing wallet, withdraw (which is where the insufficient-funds check
happens), best-effort valuation, persist, report. -/
def sellCurrency (user : UserRec) (currencyCode : String) (amount : ℚ) (db : DB)
    (now ttl : Int) : Except Err (SellResult × DB) :=
  if amount ≤ 0 then .error (.validationError "Сумма продажи должна быть положительным числом")
  else
    match getCurrency currencyCode with
    | .error (.currencyNotFound _) => .error (.currencyNotFound currencyCode)
    | .error e => .error e
    | .ok ncode =>
      match (getUserPortfolio db user.user_id).1.getWallet ncode with
      | none =>
        .error (.walletNotFound ("У вас нет кошелька '" ++ ncode ++
          "'. Добавьте валюту: она создаётся автоматически при первой покупке."))
      | some w =>
        match w.withdraw amount with
        | .error e => .error e
        | .ok wNew =>
          match bestEffortValuation ncode amount
              (getUserPortfolio db user.user_id).2.rates now ttl with
          | .error e => .error e
          | .ok v =>
            .ok ({ currency := ncode, amount := amount, old_balance := w.balance,
                   new_balance := wNew.balance, rate := v.1,
                   base := if v.1.isSome then some "USD" else none,
                   revenue_usd := v.2.1 },
                 savePortfolio { (getUserPortfolio db user.user_id).2 with rates := v.2.2 }
                   { (getUserPortfolio db user.user_id).1 with
                     wallets := setWallet (getUserPortfolio db user.user_id).1.wallets
                       (upperCode ncode) wNew })

/-- `get_next_user_id` of `core/utils.py:19-29`: 1 when there are no
users, else `max(ids) + 1`. -/
def getNextUserId (users : List UserRec) : Int :=
  match users with
  | [] => 1
  | u :: rest => (rest.foldl (fun m v => max m v.user_id) u.user_id) + 1

/-- `register_user` of `usecases.py:47-93`: short password and taken
username raise `ValidationError`; otherwise the next id is allocated, the
user row (with username stripped by the `User.username` setter, which
rejects blank names with `ValueError`) and an empty portfolio are
appended and persisted. -/
def registerUser (username password : String) (db : DB) :
    Except Err ((UserRec × Portfolio) × DB) :=
  if password.length < 4 then
    .error (.validationError "Пароль должен быть не короче 4 символов")
  else if db.users.any (fun u => u.username == username) then
    .error (.validationError ("Имя пользователя '" ++ username ++ "' уже занято"))
  else
    let uid := getNextUserId db.users
    if stripChars username.data = [] then
      .error (.valueError "Имя пользователя не может быть пустым")
    else
      let user : UserRec := ⟨uid, ⟨stripChars username.data⟩⟩
      let p : Portfolio := ⟨uid, []⟩
      .ok ((user, p),
        { db with users := db.users ++ [user],
                  portfolios := db.portfolios ++ [p.to_dict] })

/-- `calculate_wallet_value` inside `cmd_show_portfolio`
(`cli/interface.py:100-117`): the wallet keeps its balance as the value
when its code equals the base; otherwise the rate is resolved and the
product taken.  Only the builtin `ValueError` is caught and turned into
the "N/A" row (`value = none`); every other exception propagates. -/
def calculateWalletValue (base : String) (store : RatesStore) (now ttl : Int)
    (cw : String × Wallet) : Except Err (String × ℚ × Option ℚ) :=
  if cw.1 = base then .ok (cw.1, cw.2.balance, some cw.2.balance)
  else
    match getExchangeRate cw.1 base true store now ttl with
    | .ok rr => .ok (cw.1, cw.2.balance, some (cw.2.balance * rr.1.1))
    | .error (.valueError _) => .ok (cw.1, cw.2.balance, none)
    | .error e => .error e

/-- Stable insertion into a code-sorted wallet list. -/
def insertByKey (x : String × Wallet) : List (String × Wallet) → List (String × Wallet)
  | [] => [x]
  | y :: rest => if x.1 ≤ y.1 then x :: y :: rest else y :: insertByKey x rest

/-- `sorted(portfolio.wallets.items(), key=lambda x: x[0])` — stable sort
by wallet code (keys are unique in any dict the program builds). -/
def sortByKey : List (String × Wallet) → List (String × Wallet)
  | [] => []
  | x :: rest => insertByKey x (sortByKey rest)

/-- The row computation of `cmd_show_portfolio` (`cli/interface.py:119-135`):
wallets sorted by code, each valued by `calculateWalletValue`; an
exception escaping one wallet aborts the whole command.  Returns the rows
(`none` value = the "N/A" line) and the running total over the valued
rows. -/
def cmdShowPortfolioRows (wallets : List (String × Wallet)) (base : String)
    (store : RatesStore) (now ttl : Int) :
    Except Err (List (String × ℚ × Option ℚ) × ℚ) :=
  match (sortByKey wallets).mapM (calculateWalletValue base store now ttl) with
  | .error e => .error e
  | .ok rows => .ok (rows, ((rows.filterMap (fun r => r.2.2)).foldl (· + ·) 0))

/-- `d.get(key)` over a fetched rates mapping. -/
def dictGet (d : List (String × ℚ)) (k : String) : Option ℚ :=
  (d.find? (·.1 == k)).map (·.2)

/-- `d[key] = value` on a fetched rates mapping. -/
def dictInsert (d : List (String × ℚ)) (k : String) (v : ℚ) : List (String × ℚ) :=
  if d.any (·.1 == k) then d.map (fun kv => if kv.1 == k then (k, v) else kv)
  else d ++ [(k, v)]

/-- `all_rates.update(rates)`: last-writer-wins merge of one provider's
mapping into the accumulator. -/
def dictUpdate (d : List (String × ℚ)) (r : List (String × ℚ)) : List (String × ℚ) :=
  r.foldl (fun acc kv => dictInsert acc kv.1 kv.2) d

/-- The result dict of `RatesUpdater.run_update` (`updater.py:99-103`):
`updated` count, provider error messages, and the (always-irrelevant)
`all_rates.get("last_refresh")` field. -/
structure UpdateOutcome where
  updated : Nat
  errors : List String
  last_refresh : Option ℚ
deriving DecidableEq, Repr

/-- `source is None or source.lower() == name`. -/
def providerSelected (source : Option String) (name : String) : Bool :=
  match source with
  | none => true
  | some s => ⟨s.data.map Char.toLower⟩ == name

/-- `RatesUpdater.run_update` of `parser_service/updater.py:37-105`.  The
two provider fetches are the external collaborators, passed in as their
outcomes (`.ok` mapping or `.error` reason).  Cache/history writes are the
I/O collaborator and do not affect the returned value. -/
def runUpdate (source : Option String)
    (coingeckoFetch exchangerateFetch : Except String (List (String × ℚ))) :
    Except String UpdateOutcome :=
  let s1 : List (String × ℚ) × List String :=
    if providerSelected source "coingecko" then
      match coingeckoFetch with
      | .ok rates => (dictUpdate [] rates, [])
      | .error e => ([], ["Failed to fetch from CoinGecko: " ++ e])
    else ([], [])
  let s2 : List (String × ℚ) × List String :=
    if providerSelected source "exchangerate" then
      match exchangerateFetch with
      | .ok rates => (dictUpdate s1.1 rates, s1.2)
      | .error e => (s1.1, s1.2 ++ ["Failed to fetch from ExchangeRate-API: " ++ e])
    else s1
  if s2.1.isEmpty then
    if ¬ s2.2.isEmpty then .error (String.intercalate "; " s2.2)
    else .ok ⟨0, [], none⟩
  else .ok ⟨s2.1.length, s2.2, dictGet s2.1 "last_refresh"⟩

/-! ## Theorems -/


/- Basic facts about the registry and `getCurrency`. -/

theorem registry_fixed : ∀ c ∈ registryCodes, normalizeCode c = c ∧ upperCode c = c ∧ c ≠ "" := by
  decide

theorem getCurrency_ok_iff {c n : String} :
    getCurrency c = .ok n ↔ c ≠ "" ∧ normalizeCode c ∈ registryCodes ∧ n = normalizeCode c := by
  unfold getCurrency
  split
  · simp_all
  · split
    · constructor
      · intro h; cases h; simp_all
      · rintro ⟨_, _, rfl⟩; rfl
    · constructor
      · intro h; cases h
      · rintro ⟨_, hmem, rfl⟩; simp_all

theorem getCurrency_mem_registry {c n : String} (h : getCurrency c = .ok n) :
    n ∈ registryCodes := by
  rcases getCurrency_ok_iff.mp h with ⟨_, hmem, rfl⟩
  exact hmem

theorem getCurrency_ok_self {c : String} (h : c ∈ registryCodes) : getCurrency c = .ok c := by
  obtain ⟨h1, _, h3⟩ := registry_fixed c h
  exact getCurrency_ok_iff.mpr ⟨h3, by rw [h1]; exact h, h1.symm⟩

theorem getCurrency_error_shape {c : String} {e : Err} (h : getCurrency c = .error e) :
    (∃ m, e = .invalidCurrencyCode m) ∨ e = .currencyNotFound (normalizeCode c) := by
  unfold getCurrency at h
  split at h
  · exact Or.inl ⟨_, by cases h; rfl⟩
  · split at h
    · cases h
    · exact Or.inr (by cases h; rfl)

theorem getCurrency_cnf_iff {c : String} :
    (∃ cc, getCurrency c = .error (.currencyNotFound cc)) ↔
      c ≠ "" ∧ normalizeCode c ∉ registryCodes := by
  unfold getCurrency
  split
  · simp_all
  · split <;> simp_all

theorem updateFromApi_none {f t : String} {s : RatesStore} {now : Int}
    (h : tableLookup f = none ∨ tableLookup t = none) :
    updateFromApi f t s now = none := by
  unfold updateFromApi
  rcases h with h | h <;> rw [h] <;> split <;> simp_all

theorem resolveRate_error_shape {f t : String} {u : Bool} {s : RatesStore} {now ttl : Int}
    {e : Err} (h : resolveRate f t u s now ttl = .error e) :
    e = .exchangeRateNotFound f t := by
  unfold resolveRate at h
  split at h
  · cases h
  · split at h
    · cases h
    · split at h
      · cases h
      · split at h
        · cases h
        · cases h; rfl

theorem getExchangeRate_error_shape {f t : String} {u : Bool} {s : RatesStore}
    {now ttl : Int} {e : Err} (h : getExchangeRate f t u s now ttl = .error e) :
    (∃ c, e = .currencyNotFound c) ∨ (∃ m, e = .invalidCurrencyCode m) ∨
      e = .exchangeRateNotFound f t := by
  unfold getExchangeRate at h
  split at h
  · exact Or.inl ⟨_, by cases h; rfl⟩
  next heq =>
    rcases getCurrency_error_shape heq with ⟨m, rfl⟩ | rfl
    · exact Or.inr (Or.inl ⟨m, by cases h; rfl⟩)
    · cases h; exact Or.inl ⟨_, rfl⟩
  · split at h
    · exact Or.inl ⟨_, by cases h; rfl⟩
    next heq =>
      rcases getCurrency_error_shape heq with ⟨m, rfl⟩ | rfl
      · exact Or.inr (Or.inl ⟨m, by cases h; rfl⟩)
      · cases h; exact Or.inl ⟨_, rfl⟩
    · split at h
      · cases h
      · exact Or.inr (Or.inr (resolveRate_error_shape h))

/-- C1: a valid pair with a stale direct cache entry whose external refresh
fails still resolves to the stale cached rate and its stored timestamp. -/
theorem getExchangeRate_stale_refresh_failure_returns_cached
    (f t : String) (store : RatesStore) (now ttl ts : Int) (e : RateEntry)
    (hf : f ∈ registryCodes) (ht : t ∈ registryCodes) (hne : f ≠ t)
    (hdir : lookupPair (ratePairs store) (f ++ "_" ++ t) = some e)
    (hts : e.updated_at = some (some ts))
    (hstale : ¬ (now - ts < ttl))
    (hfail : tableLookup f = none ∨ tableLookup t = none) :
    getExchangeRate f t true store now ttl = .ok ((e.rate, e.updated_at), store) := by
  unfold getExchangeRate
  rw [getCurrency_ok_self hf, getCurrency_ok_self ht, if_neg hne]
  unfold resolveRate
  rw [hdir]
  simp only [resolveDirect, hts, if_neg hstale, updateFromApi_none hfail]

/-- C5: a fresh cached direct pair `b_a` with no cached pair `a_b` makes
`get_exchange_rate a b` return the derived inverse `1/rate` with the stored
timestamp. -/
theorem getExchangeRate_inverse_derived
    (a b : String) (store : RatesStore) (now ttl ts : Int) (e : RateEntry)
    (ha : a ∈ registryCodes) (hb : b ∈ registryCodes) (hne : a ≠ b)
    (hdir : lookupPair (ratePairs store) (a ++ "_" ++ b) = none)
    (hrev : lookupPair (ratePairs store) (b ++ "_" ++ a) = some e)
    (hts : e.updated_at = some (some ts))
    (hfresh : now - ts < ttl)
    (hpos : 0 < e.rate) :
    getExchangeRate a b true store now ttl = .ok ((1 / e.rate, e.updated_at), store) := by
  unfold getExchangeRate
  rw [getCurrency_ok_self ha, getCurrency_ok_self hb, if_neg hne]
  unfold resolveRate
  rw [hdir, hrev]
  simp only [resolveReverse, hts, if_pos hfresh]

/-- Witness for C1: stale `ETH_USDT` entry, refresh impossible (neither code
is in the static fallback table), the stale rate `5` and timestamp `0` come
back. -/
theorem getExchangeRate_stale_refresh_failure_returns_cached_witness :
    getExchangeRate "ETH" "USDT" true ⟨some [("ETH_USDT", ⟨5, some (some 0)⟩)], []⟩ 10000 3600
      = .ok ((5, some (some 0)), ⟨some [("ETH_USDT", ⟨5, some (some 0)⟩)], []⟩) :=
  getExchangeRate_stale_refresh_failure_returns_cached "ETH" "USDT"
    ⟨some [("ETH_USDT", ⟨5, some (some 0)⟩)], []⟩ 10000 3600 0 ⟨5, some (some 0)⟩
    (by decide) (by decide) (by decide) rfl rfl (by decide) (Or.inl (by decide))

/-- Witness for C5: cache holds only `EUR_USD` (rate 2, fresh); resolving
`USD → EUR` yields the derived `1/2`. -/
theorem getExchangeRate_inverse_derived_witness :
    getExchangeRate "USD" "EUR" true ⟨some [("EUR_USD", ⟨2, some (some 50)⟩)], []⟩ 100 3600
      = .ok ((1 / 2, some (some 50)), ⟨some [("EUR_USD", ⟨2, some (some 50)⟩)], []⟩) :=
  getExchangeRate_inverse_derived "USD" "EUR"
    ⟨some [("EUR_USD", ⟨2, some (some 50)⟩)], []⟩ 100 3600 50 ⟨2, some (some 50)⟩
    (by decide) (by decide) (by decide) rfl rfl rfl (by decide) (by decide)

/-- C2 (code bug): with a BTC balance of 5, `sell_currency` of 10 fails with
the *plain* `ValueError` raised inside `Wallet.withdraw` — not with
`InsufficientFundsError{available, required}` as the spec (and the
function's own docstring, inline comment and `cmd_sell` handler) promise.
The error is raised before any mutation and before `save_portfolio`, so the
stored balance stays 5.  The second conjunct pins the origin in
`Wallet.withdraw` itself. -/
theorem sellCurrency_insufficient_funds_plain_valueError :
    sellCurrency ⟨1, "alice"⟩ "BTC" 10
        ⟨[⟨1, "alice"⟩], [⟨1, [("BTC", some 5)]⟩], ⟨none, []⟩⟩ 0 3600
      = .error (.valueError "Недостаточно средств на балансе")
    ∧ Wallet.withdraw ⟨"BTC", 5⟩ 10 = .error (.valueError "Недостаточно средств на балансе")
    ∧ portfolioBalance ⟨[⟨1, "alice"⟩], [⟨1, [("BTC", some 5)]⟩], ⟨none, []⟩⟩ 1 "BTC" = 5 :=
  ⟨rfl, rfl, rfl⟩

/-- C4 (code bug): a wallet whose rate is unresolvable makes the whole
`show-portfolio` computation abort with `ExchangeRateNotFoundError` (the
per-wallet handler only catches the builtin `ValueError`, which
`get_exchange_rate` never raises), instead of producing an "N/A" row; and
`Portfolio.get_total_value` likewise raises on the first unknown currency. -/
theorem showPortfolio_unresolvable_rate_aborts :
    cmdShowPortfolioRows [("ETH", ⟨"ETH", 3⟩)] "USD" ⟨none, []⟩ 0 3600
      = .error (.exchangeRateNotFound "ETH" "USD")
    ∧ Portfolio.getTotalValue ⟨7, [("ETH", ⟨"ETH", 3⟩)]⟩ "USD"
      = .error (.valueError "Курс для валюты ETH не найден") :=
  ⟨rfl, rfl⟩

/-- C6 counterexample: the cache holds a fresh `USD_EUR` entry.  Calling
`get_exchange_rate` with the non-normalized `"usd"` misses the cache, the
API stub and the fallback table (all keyed by the raw string) and fails,
while the normalized call returns the cached rate — so the outcome is NOT
invariant under trimming/upper-casing the arguments. -/
theorem getExchangeRate_no_normalization_counterexample :
    getExchangeRate "usd" "EUR" true ⟨some [("USD_EUR", ⟨2, some (some 100)⟩)], []⟩ 100 3600
      = .error (.exchangeRateNotFound "usd" "EUR")
    ∧ getExchangeRate "USD" "EUR" true ⟨some [("USD_EUR", ⟨2, some (some 100)⟩)], []⟩ 100 3600
      = .ok ((2, some (some 100)), ⟨some [("USD_EUR", ⟨2, some (some 100)⟩)], []⟩) :=
  ⟨rfl, rfl⟩

/-- C6 amended: `get_exchange_rate` normalizes only inside the registry
validation — it fails with `CurrencyNotFound` naming the raw first argument
iff that argument is non-empty with unregistered normalized form — while
the identity check and all lookups use the raw strings, so only
already-normalized inputs coincide with the normalized call. -/
theorem getExchangeRate_normalization_amended
    (f t : String) (store : RatesStore) (now ttl : Int) :
    (getExchangeRate f t true store now ttl = .error (.currencyNotFound f)
       ↔ f ≠ "" ∧ normalizeCode f ∉ registryCodes)
    ∧ (normalizeCode f = f → normalizeCode t = t →
       getExchangeRate f t true store now ttl
         = getExchangeRate (normalizeCode f) (normalizeCode t) true store now ttl) := by
  constructor
  · constructor
    · intro h
      unfold getExchangeRate at h
      split at h
      next heq => exact getCurrency_cnf_iff.mp ⟨_, heq⟩
      next hguard heq =>
        cases h
        exact getCurrency_cnf_iff.mp ⟨_, heq⟩
      next nf heqf =>
        split at h
        next x heqt =>
          cases h
          rw [heqf] at heqt
          cases heqt
        next hguard heqt =>
          cases h
          exact (hguard _ rfl).elim
        next nt heqt =>
          split at h
          · cases h
          · exact absurd (resolveRate_error_shape h) (by intro hc; cases hc)
    · rintro ⟨hne, hnm⟩
      have hf : getCurrency f = .error (.currencyNotFound (normalizeCode f)) := by
        unfold getCurrency
        rw [if_neg hne, if_neg hnm]
      unfold getExchangeRate
      rw [hf]
  · intro h1 h2
    rw [h1, h2]

theorem dictInsert_ne_nil (d : List (String × ℚ)) (k : String) (v : ℚ) :
    dictInsert d k v ≠ [] := by
  unfold dictInsert
  split
  next hany =>
    cases d with
    | nil => simp at hany
    | cons a l => simp
  · simp

theorem foldl_dictInsert_ne_nil (l : List (String × ℚ)) (acc : List (String × ℚ))
    (h : acc ≠ []) : l.foldl (fun acc kv => dictInsert acc kv.1 kv.2) acc ≠ [] := by
  induction l generalizing acc with
  | nil => exact h
  | cons x rest ih => exact ih _ (dictInsert_ne_nil _ _ _)

theorem dictUpdate_ne_nil {r : List (String × ℚ)} (h : r ≠ []) : dictUpdate [] r ≠ [] := by
  cases r with
  | nil => exact absurd rfl h
  | cons x rest =>
    unfold dictUpdate
    exact foldl_dictInsert_ne_nil rest _ (dictInsert_ne_nil _ _ _)

/-- C8 counterexample: CoinGecko "succeeds" with an empty mapping (an HTTP
200 whose JSON lists no coins does exactly this) while ExchangeRate-API
fails: `run_update` then raises even though one provider succeeded, because
the raise condition only tests `all_rates` for emptiness. -/
theorem runUpdate_empty_success_still_raises :
    runUpdate none (.ok []) (.error "timeout")
      = .error "Failed to fetch from ExchangeRate-API: timeout" := rfl

/-- C8 amended: when one provider succeeds with a *non-empty* mapping and
the other fails, `run_update` returns that provider's rate count with a
non-empty error list and does not raise; it raises exactly when no rate at
all was fetched and at least one provider failed (which, as the
counterexample shows, can happen even though a provider succeeded). -/
theorem runUpdate_partial_refresh_amended
    (r : List (String × ℚ)) (e1 e2 : String) (hr : r ≠ []) :
    runUpdate none (.error e1) (.ok r)
        = .ok ⟨(dictUpdate [] r).length, ["Failed to fetch from CoinGecko: " ++ e1],
               dictGet (dictUpdate [] r) "last_refresh"⟩
    ∧ runUpdate none (.ok r) (.error e2)
        = .ok ⟨(dictUpdate [] r).length, ["Failed to fetch from ExchangeRate-API: " ++ e2],
               dictGet (dictUpdate [] r) "last_refresh"⟩
    ∧ (dictUpdate [] r).length ≠ 0
    ∧ runUpdate none (.error e1) (.error e2)
        = .error (String.intercalate "; "
            ["Failed to fetch from CoinGecko: " ++ e1,
             "Failed to fetch from ExchangeRate-API: " ++ e2]) := by
  have hne : (dictUpdate [] r).isEmpty = false := by
    cases he : dictUpdate [] r with
    | nil => exact absurd he (dictUpdate_ne_nil hr)
    | cons a l => rfl
  refine ⟨?_, ?_, ?_, rfl⟩
  · simp [runUpdate, providerSelected, hne]
  · simp [runUpdate, providerSelected, hne]
  · intro hlen
    exact dictUpdate_ne_nil hr (List.length_eq_zero.mp hlen)

/-- Witness for C8 amended: one rate fetched, one provider down — in both
provider orders. -/
theorem runUpdate_partial_refresh_amended_witness :
    runUpdate none (.error "down") (.ok [("BTC_USD", 3)])
        = .ok ⟨1, ["Failed to fetch from CoinGecko: down"], none⟩
    ∧ runUpdate none (.ok [("BTC_USD", 3)]) (.error "down")
        = .ok ⟨1, ["Failed to fetch from ExchangeRate-API: down"], none⟩ :=
  ⟨(runUpdate_partial_refresh_amended [("BTC_USD", 3)] "down" "down" (by decide)).1,
   (runUpdate_partial_refresh_amended [("BTC_USD", 3)] "down" "down" (by decide)).2.1⟩

/-- C9: serializing a portfolio with `to_dict` and deserializing with
`from_dict` preserves the user id and the (currency code, balance) pairs —
stated as equality of the extracted pair lists, which in particular gives
set equality regardless of order.  The hypothesis is the dict invariant
(each wallet is keyed by its own `currency_code`) that every constructor in
the code (`add_currency`, `from_dict`, registration) maintains. -/
theorem portfolio_roundtrip (p : Portfolio)
    (hkeys : ∀ kw ∈ p.wallets, kw.2.currency_code = kw.1) :
    (Portfolio.from_dict p.to_dict).user_id = p.user_id
    ∧ ((Portfolio.from_dict p.to_dict).wallets.map
          (fun kw => (kw.2.currency_code, kw.2.balance)))
        = p.wallets.map (fun kw => (kw.2.currency_code, kw.2.balance)) := by
  refine ⟨rfl, ?_⟩
  unfold Portfolio.from_dict Portfolio.to_dict
  simp only [List.map_map]
  apply List.map_congr_left
  intro kw hkw
  simp [hkeys kw hkw]

/-- Witness for C9 at a two-wallet portfolio. -/
theorem portfolio_roundtrip_witness :
    (Portfolio.from_dict (Portfolio.to_dict
        ⟨1, [("BTC", ⟨"BTC", 5⟩), ("ETH", ⟨"ETH", 2⟩)]⟩)).user_id = 1
    ∧ ((Portfolio.from_dict (Portfolio.to_dict
          ⟨1, [("BTC", ⟨"BTC", 5⟩), ("ETH", ⟨"ETH", 2⟩)]⟩)).wallets.map
            (fun kw => (kw.2.currency_code, kw.2.balance)))
        = [("BTC", (5 : ℚ)), ("ETH", (2 : ℚ))] :=
  portfolio_roundtrip ⟨1, [("BTC", ⟨"BTC", 5⟩), ("ETH", ⟨"ETH", 2⟩)]⟩ (by decide)

theorem foldl_max_le (l : List UserRec) (i : Int) :
    i ≤ l.foldl (fun m v => max m v.user_id) i := by
  induction l generalizing i with
  | nil => exact le_refl i
  | cons x rest ih => exact le_trans (le_max_left i x.user_id) (ih _)

theorem mem_le_foldl_max (l : List UserRec) (i : Int) :
    ∀ v ∈ l, v.user_id ≤ l.foldl (fun m v => max m v.user_id) i := by
  induction l generalizing i with
  | nil => intro v hv; cases hv
  | cons x rest ih =>
    intro v hv
    cases hv with
    | head => exact le_trans (le_max_right i x.user_id) (foldl_max_le rest _)
    | tail _ hm => exact ih _ v hm

theorem foldl_max_mem (l : List UserRec) (i : Int) :
    l.foldl (fun m v => max m v.user_id) i = i
    ∨ ∃ v ∈ l, l.foldl (fun m v => max m v.user_id) i = v.user_id := by
  induction l generalizing i with
  | nil => exact Or.inl rfl
  | cons x rest ih =>
    simp only [List.foldl_cons]
    rcases ih (max i x.user_id) with h | ⟨v, hv, he⟩
    · rcases le_total i x.user_id with hle | hle
      · right
        exact ⟨x, List.mem_cons_self _ _, by rw [h, max_eq_right hle]⟩
      · left
        rw [h, max_eq_left hle]
    · right
      exact ⟨v, List.mem_cons_of_mem _ hv, he⟩

theorem lt_getNextUserId {l : List UserRec} : ∀ v ∈ l, v.user_id < getNextUserId l := by
  intro v hv
  cases l with
  | nil => cases hv
  | cons x rest =>
    simp only [getNextUserId]
    have hle : v.user_id ≤ rest.foldl (fun m w => max m w.user_id) x.user_id := by
      cases hv with
      | head => exact foldl_max_le rest _
      | tail _ hm => exact mem_le_foldl_max rest _ v hm
    omega

theorem getNextUserId_succ {l : List UserRec} (h : l ≠ []) :
    ∃ v ∈ l, getNextUserId l = v.user_id + 1 := by
  cases l with
  | nil => exact absurd rfl h
  | cons x rest =>
    simp only [getNextUserId]
    rcases foldl_max_mem rest x.user_id with he | ⟨v, hv, he⟩
    · exact ⟨x, List.mem_cons_self _ _, by rw [he]⟩
    · exact ⟨v, List.mem_cons_of_mem _ hv, by rw [he]⟩

/-- C7: registering a taken username fails with `ValidationError` (as does
a short password), and a successful registration gets id
`max(existing ids) + 1` (1 on an empty store), which is strictly above — in
particular different from — every existing id. -/
theorem registerUser_uniqueness_and_id_allocation
    (username password : String) (db : DB) :
    ((password.length < 4 ∨ ∃ u ∈ db.users, u.username = username) →
        ∃ m, registerUser username password db = .error (.validationError m))
    ∧ (∀ u pf db2, registerUser username password db = .ok ((u, pf), db2) →
        u.user_id = getNextUserId db.users
        ∧ (∀ v ∈ db.users, v.user_id < u.user_id)
        ∧ (db.users = [] → u.user_id = 1)
        ∧ (db.users ≠ [] → ∃ v ∈ db.users, u.user_id = v.user_id + 1)) := by
  constructor
  · intro h
    unfold registerUser
    by_cases hp : password.length < 4
    · rw [if_pos hp]
      exact ⟨_, rfl⟩
    · rcases h with h | ⟨u, hu, hname⟩
      · exact absurd h hp
      · rw [if_neg hp]
        split
        · exact ⟨_, rfl⟩
        next hany =>
          have hprf : (db.users.any fun u0 => u0.username == username) = true :=
            List.any_eq_true.mpr ⟨u, hu, beq_iff_eq.mpr hname⟩
          exact absurd hprf hany
  · intro u pf db2 h
    unfold registerUser at h
    split at h
    · cases h
    · split at h
      · cases h
      · split at h
        · cases h
        · cases h
          refine ⟨rfl, lt_getNextUserId, ?_, fun hne => getNextUserId_succ hne⟩
          intro he
          rw [he]
          rfl

/-- Witness for C7: duplicate "alice" rejected; registering "bob" next to
the existing id 1 yields id 2 = 1 + 1. -/
theorem registerUser_uniqueness_and_id_allocation_witness :
    (∃ m, registerUser "alice" "pw55" ⟨[⟨1, "alice"⟩], [], ⟨none, []⟩⟩
        = .error (.validationError m))
    ∧ (⟨2, "bob"⟩ : UserRec).user_id = getNextUserId [⟨1, "alice"⟩] :=
  ⟨(registerUser_uniqueness_and_id_allocation "alice" "pw55"
      ⟨[⟨1, "alice"⟩], [], ⟨none, []⟩⟩).1 (Or.inr ⟨⟨1, "alice"⟩, by decide, rfl⟩),
   ((registerUser_uniqueness_and_id_allocation "bob" "pw55"
      ⟨[⟨1, "alice"⟩], [], ⟨none, []⟩⟩).2 ⟨2, "bob"⟩ ⟨2, []⟩
      ⟨[⟨1, "alice"⟩, ⟨2, "bob"⟩], [⟨2, []⟩], ⟨none, []⟩⟩ rfl).1⟩

theorem validateCurrencyCode_error_shape {c : String} {e : Err}
    (h : validateCurrencyCode c = .error e) : ∃ m, e = .invalidCurrencyCode m := by
  unfold validateCurrencyCode at h
  split at h
  · exact ⟨_, by cases h; rfl⟩
  · split at h
    · exact ⟨_, by cases h; rfl⟩
    · split at h
      · exact ⟨_, by cases h; rfl⟩
      · cases h

theorem convertCurrencyAmount_error_shape {amount r : ℚ} {f t : String} {e : Err}
    (h : convertCurrencyAmount amount f t r = .error e) :
    (∃ m, e = .validationError m) ∨ (∃ m, e = .invalidCurrencyCode m) := by
  unfold convertCurrencyAmount at h
  split at h
  · exact Or.inl ⟨_, by cases h; rfl⟩
  · split at h
    · exact Or.inl ⟨_, by cases h; rfl⟩
    · split at h
      next heq => exact Or.inr (by cases h; exact validateCurrencyCode_error_shape heq)
      · split at h
        next heq => exact Or.inr (by cases h; exact validateCurrencyCode_error_shape heq)
        · split at h <;> cases h

theorem bestEffortValuation_error_shape {ncode : String} {amount : ℚ} {s : RatesStore}
    {now ttl : Int} {e : Err} (h : bestEffortValuation ncode amount s now ttl = .error e) :
    ∀ a b, e ≠ .exchangeRateNotFound a b := by
  intro a b hab
  subst hab
  unfold bestEffortValuation at h
  split at h
  · split at h
    · cases h
    next heq =>
      cases h
      rcases convertCurrencyAmount_error_shape heq with ⟨m, hm⟩ | ⟨m, hm⟩ <;> cases hm
  · cases h
  next hguard heq =>
    cases h
    exact hguard _ _ rfl

theorem getOrCreateWallet_error_shape {p : Portfolio} {c : String} {e : Err}
    (h : getOrCreateWallet p c = .error e) : ∃ m, e = .valueError m := by
  unfold getOrCreateWallet at h
  split at h
  · cases h
  · unfold Portfolio.addCurrency at h
    split at h
    · exact ⟨_, by cases h; rfl⟩
    · cases h

theorem deposit_error_shape {w : Wallet} {amount : ℚ} {e : Err}
    (h : w.deposit amount = .error e) : ∃ m, e = .valueError m := by
  unfold Wallet.deposit at h
  split at h
  · exact ⟨_, by cases h; rfl⟩
  · cases h

/-- C10: `buy_currency` never lets `ExchangeRateNotFoundError` escape to
its caller (the best-effort valuation swallows it), for *every* argument
and store state — so the `except ExchangeRateNotFoundError` branch of
`cmd_buy`, which would call `buy_currency` a second time and deposit the
amount twice, can never run. -/
theorem buyCurrency_never_exchangeRateNotFound
    (user : UserRec) (code : String) (amount : ℚ) (db : DB) (now ttl : Int) :
    ∀ f t, buyCurrency user code amount db now ttl ≠ .error (.exchangeRateNotFound f t) := by
  intro f t h
  unfold buyCurrency at h
  split at h
  · cases h
  · split at h
    · cases h
    next heq =>
      cases h
      rcases getCurrency_error_shape heq with ⟨m, hm⟩ | hm <;> cases hm
    · split at h
      next heq =>
        cases h
        rcases getOrCreateWallet_error_shape heq with ⟨m, hm⟩
        cases hm
      · split at h
        next heq =>
          cases h
          rcases deposit_error_shape heq with ⟨m, hm⟩
          cases hm
        · split at h
          next heq =>
            cases h
            exact bestEffortValuation_error_shape heq f t rfl
          · cases h

theorem getExchangeRate_unresolvable {ncode : String} {store : RatesStore} {now ttl : Int}
    (hreg : ncode ∈ registryCodes)
    (hd : lookupPair (ratePairs store) (ncode ++ "_" ++ "USD") = none)
    (hr : lookupPair (ratePairs store) ("USD" ++ "_" ++ ncode) = none)
    (hN : tableLookup ncode = none) :
    getExchangeRate ncode "USD" true store now ttl
      = .error (.exchangeRateNotFound ncode "USD") := by
  have hne : ncode ≠ "USD" := by
    intro he
    rw [he] at hN
    exact absurd hN (by decide)
  unfold getExchangeRate
  rw [getCurrency_ok_self hreg, getCurrency_ok_self (show "USD" ∈ registryCodes by decide),
    if_neg hne]
  simp only [resolveRate, hd, hr, updateFromApi_none (Or.inl hN), hN]

theorem bestEffortValuation_unresolvable {ncode : String} {amount : ℚ} {store : RatesStore}
    {now ttl : Int} (hreg : ncode ∈ registryCodes)
    (hd : lookupPair (ratePairs store) (ncode ++ "_" ++ "USD") = none)
    (hr : lookupPair (ratePairs store) ("USD" ++ "_" ++ ncode) = none)
    (hN : tableLookup ncode = none) :
    bestEffortValuation ncode amount store now ttl = .ok (none, none, store) := by
  unfold bestEffortValuation
  rw [getExchangeRate_unresolvable hreg hd hr hN]

theorem find?_map_fromDict (l : List (String × Option ℚ)) (c : String) :
    ((l.map (fun kb => (kb.1, (⟨kb.1, kb.2.getD 0⟩ : Wallet)))).find? (fun kw => kw.1 == c))
      = (l.find? (fun kb => kb.1 == c)).map
          (fun kb => (kb.1, (⟨kb.1, kb.2.getD 0⟩ : Wallet))) := by
  induction l with
  | nil => rfl
  | cons x rest ih =>
    cases hx : x.1 == c
    · simp [List.map_cons, List.find?_cons, hx, ih]
    · simp [List.map_cons, List.find?_cons, hx, Option.map_some]

theorem find?_map_toDict (l : List (String × Wallet)) (c : String) :
    ((l.map (fun kw => (kw.1, some kw.2.balance))).find? (fun kb => kb.1 == c))
      = (l.find? (fun kw => kw.1 == c)).map (fun kw => (kw.1, some kw.2.balance)) := by
  induction l with
  | nil => rfl
  | cons x rest ih =>
    cases hx : x.1 == c
    · simp [List.map_cons, List.find?_cons, hx, ih]
    · simp [List.map_cons, List.find?_cons, hx, Option.map_some]

theorem setWallet_of_find?_none {ws : List (String × Wallet)} {c : String}
    (h : ws.find? (fun kw => kw.1 == c) = none) (w : Wallet) : setWallet ws c w = ws := by
  induction ws with
  | nil => rfl
  | cons x rest ih =>
    obtain ⟨k, v⟩ := x
    cases hx : k == c
    · simp only [List.find?_cons, hx] at h
      simp [setWallet, hx, ih h]
    · simp only [List.find?_cons, hx] at h
      cases h

theorem setWallet_append_of_none {ws : List (String × Wallet)} {c : String}
    (h : ws.find? (fun kw => kw.1 == c) = none) (l : List (String × Wallet)) (w : Wallet) :
    setWallet (ws ++ l) c w = ws ++ setWallet l c w := by
  induction ws with
  | nil => rfl
  | cons x rest ih =>
    obtain ⟨k, v⟩ := x
    cases hx : k == c
    · simp only [List.find?_cons, hx] at h
      simp [List.cons_append, setWallet, hx, ih h]
    · simp only [List.find?_cons, hx] at h
      cases h

theorem find?_setWallet_found {ws : List (String × Wallet)} {c : String}
    {kv : String × Wallet} (h : ws.find? (fun kw => kw.1 == c) = some kv) (w : Wallet) :
    (setWallet ws c w).find? (fun kw => kw.1 == c) = some (kv.1, w) := by
  induction ws with
  | nil => cases h
  | cons x rest ih =>
    obtain ⟨k, v⟩ := x
    cases hx : k == c
    · simp [List.find?_cons, hx] at h
      simp [setWallet, hx, List.find?_cons]
      exact ih h
    · simp [List.find?_cons, hx] at h
      cases h
      simp [setWallet, hx, List.find?_cons]

theorem find_savePortfolioList_found {ps : List PortfolioDict} {uid : Int}
    {d nd : PortfolioDict} (hf : findPortfolioDict ps uid = some d)
    (hnd : nd.user_id = uid) :
    findPortfolioDict (savePortfolioList ps nd) uid = some nd := by
  induction ps with
  | nil => cases hf
  | cons p rest ih =>
    unfold findPortfolioDict at hf ⊢
    cases hp : p.user_id == uid
    · have hpnd : (p.user_id == nd.user_id) = false := by rw [hnd]; exact hp
      simp [List.find?_cons, hp] at hf
      simp [savePortfolioList, hpnd, List.find?_cons, hp]
      exact ih hf
    · have hpeq : p.user_id = uid := by simpa using hp
      simp [savePortfolioList, List.find?_cons, hpeq, hnd]

theorem find_savePortfolioList_append {ps : List PortfolioDict} {uid : Int}
    {ed nd : PortfolioDict} (hnone : findPortfolioDict ps uid = none)
    (hed : ed.user_id = uid) (hnd : nd.user_id = uid) :
    findPortfolioDict (savePortfolioList (ps ++ [ed]) nd) uid = some nd := by
  induction ps with
  | nil =>
    simp [List.nil_append, savePortfolioList, findPortfolioDict, List.find?_cons, hed, hnd]
  | cons p rest ih =>
    unfold findPortfolioDict at hnone ⊢
    cases hp : p.user_id == uid
    · simp only [List.find?_cons, hp] at hnone
      have hpnd : (p.user_id == nd.user_id) = false := by rw [hnd]; exact hp
      simp [List.cons_append, savePortfolioList, hpnd, List.find?_cons, hp]
      exact ih hnone
    · simp only [List.find?_cons, hp] at hnone
      cases hnone

/-- C3: for a registered currency with no resolvable rate against USD
anywhere (no direct or inverse cache pair, not in the fallback table — so
the stubbed external source fails too), `buy_currency` still succeeds: the
wallet balance grows by exactly `amount`, both in the returned result and
in the persisted portfolio, and the `rate`/`base`/`cost_usd` fields of the
result are absent. -/
theorem buyCurrency_no_rate_still_deposits
    (user : UserRec) (code ncode : String) (amount : ℚ) (db : DB) (now ttl : Int)
    (hcur : getCurrency code = .ok ncode)
    (hamt : 0 < amount)
    (hd : lookupPair (ratePairs db.rates) (ncode ++ "_" ++ "USD") = none)
    (hr : lookupPair (ratePairs db.rates) ("USD" ++ "_" ++ ncode) = none)
    (hN : tableLookup ncode = none) :
    ∃ res db2, buyCurrency user code amount db now ttl = .ok (res, db2)
      ∧ res.rate = none ∧ res.base = none ∧ res.cost_usd = none
      ∧ res.new_balance = res.old_balance + amount
      ∧ res.old_balance = portfolioBalance db user.user_id ncode
      ∧ portfolioBalance db2 user.user_id ncode
          = portfolioBalance db user.user_id ncode + amount := by
  have hreg : ncode ∈ registryCodes := getCurrency_mem_registry hcur
  obtain ⟨hnorm, hupper, hne0⟩ := registry_fixed ncode hreg
  have hnle : ¬ amount ≤ 0 := not_le.mpr hamt
  have hval : bestEffortValuation ncode amount db.rates now ttl = .ok (none, none, db.rates) :=
    bestEffortValuation_unresolvable hreg hd hr hN
  rcases hfp : findPortfolioDict db.portfolios user.user_id with _ | d
  · -- no stored portfolio: an empty one is created and saved, the wallet is fresh
    have hgup : getUserPortfolio db user.user_id
        = (⟨user.user_id, []⟩,
           { db with portfolios := db.portfolios ++ [⟨user.user_id, []⟩] }) := by
      unfold getUserPortfolio
      rw [hfp]
      rfl
    have hrun : buyCurrency user code amount db now ttl
        = .ok ({ currency := ncode, amount := amount, old_balance := 0,
                 new_balance := 0 + amount, rate := none, base := none, cost_usd := none },
               savePortfolio { db with portfolios := db.portfolios ++ [⟨user.user_id, []⟩] }
                 ⟨user.user_id, setWallet [(ncode, ⟨ncode, 0⟩)] ncode ⟨ncode, 0 + amount⟩⟩) := by
      simp only [buyCurrency, if_neg hnle, hcur, hgup, getOrCreateWallet,
        Portfolio.getWallet, List.find?_nil, Portfolio.addCurrency,
        hupper, Wallet.deposit, if_neg hnle, hval]
      rfl
    refine ⟨_, _, hrun, rfl, rfl, rfl, rfl, ?_, ?_⟩
    · unfold portfolioBalance
      rw [hfp]
    · have hsetone : setWallet [(ncode, (⟨ncode, 0⟩ : Wallet))] ncode ⟨ncode, 0 + amount⟩
          = [(ncode, (⟨ncode, 0 + amount⟩ : Wallet))] := by
        simp [setWallet]
      unfold portfolioBalance savePortfolio
      rw [hfp, hsetone]
      have hfind : findPortfolioDict
            (savePortfolioList (db.portfolios ++ [⟨user.user_id, []⟩])
              ⟨user.user_id, [(ncode, some (0 + amount))]⟩) user.user_id
          = some ⟨user.user_id, [(ncode, some (0 + amount))]⟩ :=
        find_savePortfolioList_append hfp rfl rfl
      simp only [Portfolio.to_dict, List.map_cons, List.map_nil]
      rw [hfind]
      simp [List.find?_cons]
  · -- a stored portfolio row d exists
    have hduid : d.user_id = user.user_id := by
      have := List.find?_some hfp
      simpa using this
    have hgup : getUserPortfolio db user.user_id = (Portfolio.from_dict d, db) := by
      unfold getUserPortfolio
      rw [hfp]
    rcases hw : d.wallets.find? (fun kb => kb.1 == ncode) with _ | kb
    · -- no wallet for ncode yet: add_currency creates it
      have hgw : (Portfolio.from_dict d).getWallet ncode = none := by
        unfold Portfolio.getWallet Portfolio.from_dict
        rw [hupper]
        rw [find?_map_fromDict, hw]
        rfl
      have hfw : (Portfolio.from_dict d).wallets.find? (fun kw => kw.1 == ncode) = none := by
        unfold Portfolio.from_dict
        rw [find?_map_fromDict, hw]
        rfl
      have hisw : ((Portfolio.from_dict d).wallets.find? (fun kw => kw.1 == ncode)).isSome
          = false := by
        rw [hfw]
        rfl
      have hrun : buyCurrency user code amount db now ttl
          = .ok ({ currency := ncode, amount := amount, old_balance := 0,
                   new_balance := 0 + amount, rate := none, base := none, cost_usd := none },
                 savePortfolio db
                   ⟨d.user_id,
                    setWallet ((Portfolio.from_dict d).wallets ++ [(ncode, ⟨ncode, 0⟩)])
                      ncode ⟨ncode, 0 + amount⟩⟩) := by
        simp only [buyCurrency, if_neg hnle, hcur, hgup, getOrCreateWallet, hgw,
          Portfolio.addCurrency, hupper, hisw, Bool.false_eq_true, if_false,
          Wallet.deposit, if_neg hnle, hval]
        rfl
      refine ⟨_, _, hrun, rfl, rfl, rfl, rfl, ?_, ?_⟩
      · unfold portfolioBalance
        simp only [hfp, hw]
      · have hset := setWallet_append_of_none hfw [(ncode, (⟨ncode, 0⟩ : Wallet))]
          ⟨ncode, 0 + amount⟩
        have hsetone : setWallet [(ncode, (⟨ncode, 0⟩ : Wallet))] ncode ⟨ncode, 0 + amount⟩
            = [(ncode, (⟨ncode, 0 + amount⟩ : Wallet))] := by
          simp [setWallet]
        rw [hsetone] at hset
        have hfind : findPortfolioDict
              (savePortfolioList db.portfolios
                ⟨d.user_id,
                 (((Portfolio.from_dict d).wallets
                    ++ [(ncode, (⟨ncode, 0 + amount⟩ : Wallet))]).map
                   (fun kw => (kw.1, some kw.2.balance)))⟩) user.user_id
            = some ⟨d.user_id,
                (((Portfolio.from_dict d).wallets
                   ++ [(ncode, (⟨ncode, 0 + amount⟩ : Wallet))]).map
                  (fun kw => (kw.1, some kw.2.balance)))⟩ :=
          find_savePortfolioList_found hfp hduid
        have hfnew : ((((Portfolio.from_dict d).wallets
              ++ [(ncode, (⟨ncode, 0 + amount⟩ : Wallet))]).map
                (fun kw => (kw.1, some kw.2.balance))).find? (fun kb => kb.1 == ncode))
            = some (ncode, some (0 + amount)) := by
          rw [List.map_append, List.find?_append, find?_map_toDict, hfw]
          simp [List.find?_cons]
        unfold portfolioBalance savePortfolio
        simp only [Portfolio.to_dict, hset, hfp, hw, hfind, hfnew, Option.getD_some]
    · -- the wallet exists: balance grows in place
      have hkb1 : kb.1 = ncode := by
        have := List.find?_some hw
        simpa using this
      have hfw : (Portfolio.from_dict d).wallets.find? (fun kw => kw.1 == ncode)
          = some (kb.1, ⟨kb.1, kb.2.getD 0⟩) := by
        unfold Portfolio.from_dict
        rw [find?_map_fromDict, hw]
        rfl
      have hgw : (Portfolio.from_dict d).getWallet ncode = some ⟨kb.1, kb.2.getD 0⟩ := by
        unfold Portfolio.getWallet
        rw [hupper, hfw]
        rfl
      have hrun : buyCurrency user code amount db now ttl
          = .ok ({ currency := ncode, amount := amount, old_balance := kb.2.getD 0,
                   new_balance := kb.2.getD 0 + amount, rate := none, base := none,
                   cost_usd := none },
                 savePortfolio db
                   ⟨d.user_id,
                    setWallet (Portfolio.from_dict d).wallets ncode
                      ⟨kb.1, kb.2.getD 0 + amount⟩⟩) := by
        simp only [buyCurrency, if_neg hnle, hcur, hgup, getOrCreateWallet, hgw,
          Wallet.deposit, if_neg hnle, hval, hupper]
        rfl
      refine ⟨_, _, hrun, rfl, rfl, rfl, rfl, ?_, ?_⟩
      · unfold portfolioBalance
        simp only [hfp, hw]
      · have hset := find?_setWallet_found hfw ⟨kb.1, kb.2.getD 0 + amount⟩
        have hfind : findPortfolioDict
              (savePortfolioList db.portfolios
                ⟨d.user_id,
                 ((setWallet (Portfolio.from_dict d).wallets ncode
                    ⟨kb.1, kb.2.getD 0 + amount⟩).map
                   (fun kw => (kw.1, some kw.2.balance)))⟩) user.user_id
            = some ⟨d.user_id,
                ((setWallet (Portfolio.from_dict d).wallets ncode
                   ⟨kb.1, kb.2.getD 0 + amount⟩).map
                  (fun kw => (kw.1, some kw.2.balance)))⟩ :=
          find_savePortfolioList_found hfp hduid
        have hfnew : (((setWallet (Portfolio.from_dict d).wallets ncode
              ⟨kb.1, kb.2.getD 0 + amount⟩).map
                (fun kw => (kw.1, some kw.2.balance))).find? (fun kb => kb.1 == ncode))
            = some (kb.1, some (kb.2.getD 0 + amount)) := by
          rw [find?_map_toDict, hset]
          rfl
        unfold portfolioBalance savePortfolio
        simp only [Portfolio.to_dict, hfp, hw, hfind, hfnew, Option.getD_some]

/-- Witness for C3: buying 10 ETH with an empty rate cache (ETH has no
fallback-table entry, so the stubbed external source fails as well). -/
theorem buyCurrency_no_rate_still_deposits_witness :
    ∃ res db2,
      buyCurrency ⟨1, "alice"⟩ "ETH" 10 ⟨[⟨1, "alice"⟩], [], ⟨none, []⟩⟩ 0 3600
        = .ok (res, db2)
      ∧ res.rate = none ∧ res.base = none ∧ res.cost_usd = none
      ∧ res.new_balance = res.old_balance + 10
      ∧ res.old_balance = portfolioBalance ⟨[⟨1, "alice"⟩], [], ⟨none, []⟩⟩ 1 "ETH"
      ∧ portfolioBalance db2 1 "ETH"
          = portfolioBalance ⟨[⟨1, "alice"⟩], [], ⟨none, []⟩⟩ 1 "ETH" + 10 :=
  buyCurrency_no_rate_still_deposits ⟨1, "alice"⟩ "ETH" "ETH" 10
    ⟨[⟨1, "alice"⟩], [], ⟨none, []⟩⟩ 0 3600 rfl (by norm_num) rfl rfl rfl

/-- Witness for C6 amended: an unregistered raw code is rejected naming the
raw string, and already-normalized inputs agree with the normalized call. -/
theorem getExchangeRate_normalization_amended_witness :
    getExchangeRate "zzz" "USD" true ⟨none, []⟩ 0 3600 = .error (.currencyNotFound "zzz")
    ∧ getExchangeRate "USD" "EUR" true ⟨none, []⟩ 0 3600
        = getExchangeRate (normalizeCode "USD") (normalizeCode "EUR") true ⟨none, []⟩ 0 3600 :=
  ⟨(getExchangeRate_normalization_amended "zzz" "USD" ⟨none, []⟩ 0 3600).1.mpr
      ⟨by decide, by decide⟩,
   (getExchangeRate_normalization_amended "USD" "EUR" ⟨none, []⟩ 0 3600).2
      (by decide) (by decide)⟩

end ValutaTrade
